import Mathlib

/-!
Shallow embedding of the `citypay/node-mail-handler` request handler
(the richer handler variant, with branding and latch-based fan-in).

JavaScript values that may be `undefined` are modelled as `Option`;
JavaScript truthiness of a string value (`undefined` and `""` are falsy)
is `truthyS`.  File reads (`fs.readFileSync`) are modelled by an oracle
`fs : String → Option String` (`none` models a thrown read error).
The external mail-delivery service is modelled by an outcome per issued
send (`SendOutcome`) and an arrival order of its callbacks.
-/

/-- Truthiness of a JS string-or-undefined value: `undefined` and `""` are falsy. -/
def truthyS : Option String → Bool
  | none => false
  | some s => decide (s ≠ "")

/-- Model of JS `a || b` on string-or-undefined values. -/
def jsOr (a b : Option String) : Option String :=
  if truthyS a then a else b

/-- Model of JS `String.prototype.startsWith`: `p` is a character-list prefix of `s`. -/
def jsStartsWith (s p : String) : Bool :=
  List.isPrefixOf p.data s.data

/-- Model of JS `x + ''` string coercion for a string-or-undefined value. -/
def jsToString : Option String → String
  | none => "undefined"
  | some s => s

/-- One mail item of the request (`config.mail[i]`).  `from` etc. may be absent. -/
structure MailItem where
  «from» : Option String
  «to» : Option (List String)
  cc : Option (List String)
  bcc : Option (List String)
  subject : Option String
  body : Option String
  replyTo : Option String
  brand : Option String
  deriving DecidableEq, Repr

/-- One entry of the request-level `branding` array. -/
structure BrandDefinition where
  name : String
  css : Option String
  header : Option String
  footer : Option String
  deriving DecidableEq, Repr

/-- The `config.recaptcha` settings object. -/
structure Recaptcha where
  enabled : Bool
  response : Option String
  secret : Option String
  remoteip : Option String
  deriving DecidableEq, Repr

/-- The top-level request (`config`). -/
structure Config where
  recaptcha : Option Recaptcha
  mail : Option (List MailItem)
  brand : Option String
  branding : Option (List BrandDefinition)
  deliver : Option Bool
  deriving DecidableEq, Repr

/-- Effective `config.deliver` after `Object.assign({deliver: true}, config)`
and the explicit `undefined` re-default: absent means `true`. -/
def effDeliver (cfg : Config) : Bool :=
  cfg.deliver.getD true

/-- Value of the JS `brand` local in `sendMail` after resolution:
`undefined`, still the raw string reference, or a found `BrandDefinition`. -/
inductive BrandVal where
  | undef
  | ref (s : String)
  | bdef (b : BrandDefinition)
  deriving DecidableEq, Repr

/-- Wrap a string-or-undefined into the JS value it denotes. -/
def ofOptString : Option String → BrandVal
  | none => .undef
  | some s => .ref s

/-- JS truthiness of the `brand` local. -/
def truthyB : BrandVal → Bool
  | .undef => false
  | .ref s => decide (s ≠ "")
  | .bdef _ => true

/-- Resolution of the `brand` local in `sendMail`:
`let brand = mail.brand || config.brand;` then
`if (config.branding && brand) brand = config.branding.find(e => e.name === brand);`.
When `config.branding` is absent the raw string reference is kept. -/
def resolveBrand (cfg : Config) (m : MailItem) : BrandVal :=
  let r := jsOr m.brand cfg.brand
  match cfg.branding with
  | some bs =>
    if truthyS r then
      match bs.find? (fun e => decide (e.name = r.getD "")) with
      | some b => .bdef b
      | none => .undef
    else ofOptString r
  | none => ofOptString r

/-- One key of `_mapKeysAndReadData(brand, {}, '', false, 'css', 'header', 'footer')`:
reads the file at `get brand` when the source object and the path are truthy,
degrading to `""` on an absent key, absent source, or read failure
(`throwOnNotFound` is `false` at this call site). -/
def readAsset (fs : String → Option String) (brand : BrandVal)
    (get : BrandDefinition → Option String) : String :=
  match brand with
  | .bdef b =>
    match get b with
    | some path => if decide (path ≠ "") then (fs path).getD "" else ""
    | none => ""
  | _ => ""

/-- The fixed HTML skeleton template literal of `htmlify`. -/
def skeletonWrap (css header footer bod : String) : String :=
  "<!DOCTYPE html>\n<html>\n<head>\n  <style>\n" ++ css ++
  "\n  </style>\n</head>\n<body>\n<div class=\"wrapper\">\n " ++ header ++
  "\n <div id=\"email_body\">\n " ++ bod ++ "\n </div>\n " ++ footer ++
  "\n</div>\n</body>\n</html>\n"

/-- The `htmlify` templater: returns the body unchanged when it already starts
with `<html` or `<!DOCTYPE`, otherwise wraps it in the skeleton with the
brand's css/header/footer assets (empty on any missing piece). -/
def htmlify (fs : String → Option String) (bod : String) (brand : BrandVal) : String :=
  if jsStartsWith bod "<html" || jsStartsWith bod "<!DOCTYPE" then bod
  else
    skeletonWrap (readAsset fs brand (fun b => b.css))
      (readAsset fs brand (fun b => b.header))
      (readAsset fs brand (fun b => b.footer)) bod

/-- The delivery request handed to `ses.sendEmail`. -/
structure SesParams where
  toA : Option (List String)
  ccA : Option (List String)
  bccA : Option (List String)
  subjectData : Option String
  source : Option String
  htmlData : Option String
  textData : Option String
  replyToA : Option (List String)
  deriving DecidableEq, Repr

/-- Construction of the `params` object inside `sendMail`'s `try` block.
The only statement there that can throw is `mail.body.startsWith('<')`
when `mail.body` is `undefined` (reached only on the no-brand path);
that throw is modelled as `Except.error`.  On the brand path `htmlify`
receives `mail.body + ''` (string coercion, `jsToString`). -/
def buildParams (cfg : Config) (fs : String → Option String) (m : MailItem) :
    Except String SesParams :=
  let base : SesParams :=
    { toA := m.«to», ccA := m.cc, bccA := m.bcc, subjectData := m.subject,
      source := m.«from», htmlData := none, textData := none,
      replyToA := if truthyS m.replyTo then some [m.replyTo.getD ""] else none }
  let brand := resolveBrand cfg m
  if truthyB brand then
    .ok { base with htmlData := some (htmlify fs (jsToString m.body) brand) }
  else
    match m.body with
    | none => .error "TypeError: Cannot read property startsWith of undefined"
    | some b =>
      if jsStartsWith b "<" then
        .ok { base with htmlData := some (htmlify fs b .undef) }
      else
        .ok { base with textData := some b }

/-- What one `sendMail` invocation does, as seen by the orchestrator. -/
inductive SendAction where
  | call (p : SesParams)
  | skipped
  | buildError (e : String)
  deriving DecidableEq, Repr

/-- The `sendMail` dispatcher: builds the request; a build exception is caught
and routed to the per-item error callback; otherwise the external call is
issued only when `config.deliver` is truthy (else only a warning is logged). -/
def sendMail (cfg : Config) (fs : String → Option String) (m : MailItem) : SendAction :=
  match buildParams cfg fs m with
  | .error e => .buildError e
  | .ok p => if effDeliver cfg then .call p else .skipped

/-- Per-item validation of the handler's `config.mail.forEach` block:
the first failing check of this item, if any. -/
def itemError (m : MailItem) : Option String :=
  if truthyS m.«from» = false then some "No mail from value provided"
  else if m.«to» = none ∨ m.«to» = some [] then some "No mail to values provided"
  else if truthyS m.subject = false then some "No mail subject value provided"
  else if truthyS m.body = false then some "No mail body value provided"
  else none

/-- All messages passed to the error handler by the `forEach` validation loop.
The `return` inside the `forEach` callback only leaves that callback, so the
loop reports one message per invalid item and the handler then continues. -/
def itemValidationErrors (ms : List MailItem) : List String :=
  ms.filterMap itemError

/-- Outcome of the handler's synchronous validation phase. -/
inductive HandlerSync where
  /-- A top-level validation check failed: the error handler is invoked once
  with `msg` and the handler returns; nothing else happens. -/
  | earlyError (msg : String)
  /-- `config.mail` is absent: `!config.mail && config.mail.length === 0`
  evaluates `length` of `undefined` and throws; neither callback is invoked. -/
  | crash
  /-- The handler proceeds: `itemErrors` were reported to the error handler by
  the per-item loop (empty when all items are valid), and the delivery
  procedure is started — directly when `direct` (recaptcha not enabled),
  otherwise gated on the external recaptcha call. -/
  | dispatch (itemErrors : List String) (direct : Bool)
  deriving DecidableEq, Repr

/-- The handler's synchronous phase: top-level validation (lines 33-61) and
choice of the recaptcha-gated vs. direct dispatch path (lines 257-276). -/
def handlerSync (cfg : Config) : HandlerSync :=
  match cfg.recaptcha with
  | none => .earlyError "No recaptcha settings provided"
  | some rc =>
    if rc.enabled = false ∧ truthyS rc.response = false then
      .earlyError "No recaptcha response provided"
    else if rc.enabled = false ∧ truthyS rc.secret = false then
      .earlyError "No recaptcha secret provided"
    else
      match cfg.mail with
      | none => .crash
      | some ms => .dispatch (itemValidationErrors ms) (!rc.enabled)

/-- Outcome of one issued external send: the delivery service invokes exactly
one of the two callbacks, with an error value or a message identifier. -/
inductive SendOutcome where
  | err (e : String)
  | ok (msgId : String)
  deriving DecidableEq, Repr

/-- One entry of the orchestrator's `results` array.  `mail` models the
internal back-reference that `cleanResults` deletes before completion. -/
structure ResultRec where
  success : Bool
  message : Option String
  subject : Option String
  mail : Option MailItem
  deriving DecidableEq, Repr

/-- The `results` array as initialised at the start of `startDeliveryProc`. -/
def initResults (ms : List MailItem) : List ResultRec :=
  ms.map fun m => { success := false, message := none, subject := m.subject, mail := some m }

/-- Effect of one per-item callback on its own `results` entry. -/
def applyOutcome (o : SendOutcome) (r : ResultRec) : ResultRec :=
  match o with
  | .err e => { r with success := false, message := some e }
  | .ok s => { r with success := true, message := some s }

/-- Update the `i`-th result entry with the outcome of its send. -/
def setOutcome : List ResultRec → Nat → SendOutcome → List ResultRec
  | [], _, _ => []
  | r :: rs, 0, o => applyOutcome o r :: rs
  | r :: rs, n + 1, o => r :: setOutcome rs n o

/-- `cleanResults`: delete the `mail` back-reference from every entry. -/
def cleanAll (rs : List ResultRec) : List ResultRec :=
  rs.map fun r => { r with mail := none }

/-- Orchestrator state: the shared `results` array, the countdown `latch`
(an integer, as JS `--latch` may pass below zero), and the list of payloads
handed to the completion handler so far. -/
structure DState where
  results : List ResultRec
  latch : Int
  completions : List (List ResultRec)
  deriving DecidableEq, Repr

/-- One per-item callback firing for item `i`: writes the entry, decrements
the latch, and on `--latch === 0` cleans the results and invokes the
completion handler with them. -/
def fireCallback (st : DState) (i : Nat) (o : SendOutcome) : DState :=
  let rs := setOutcome st.results i o
  if st.latch - 1 = 0 then
    { results := cleanAll rs, latch := st.latch - 1,
      completions := st.completions ++ [cleanAll rs] }
  else
    { results := rs, latch := st.latch - 1, completions := st.completions }

/-- The synchronous `results.forEach(res => sendMail(..., res.mail))` loop of
`startDeliveryProc`, from item index `i` on: an issued external call adds its
index to the pending-send list, a skipped send (deliver disabled) does
nothing, and a caught build exception fires the item's error callback
synchronously. -/
def phaseASteps (cfg : Config) (fs : String → Option String) :
    Nat → List MailItem → DState × List Nat → DState × List Nat
  | _, [], sp => sp
  | i, m :: ms, (st, pending) =>
    match sendMail cfg fs m with
    | .call _ => phaseASteps cfg fs (i + 1) ms (st, pending ++ [i])
    | .skipped => phaseASteps cfg fs (i + 1) ms (st, pending)
    | .buildError e => phaseASteps cfg fs (i + 1) ms (fireCallback st i (.err e), pending)

/-- The synchronous part of `startDeliveryProc` on mail list `ms`: initial
results and latch, then the dispatch loop.  Returns the state after the loop
together with the indices of the sends actually issued to the external
service. -/
def startDeliverySync (cfg : Config) (fs : String → Option String)
    (ms : List MailItem) : DState × List Nat :=
  phaseASteps cfg fs 0 ms ({ results := initResults ms, latch := (ms.length : Int), completions := [] }, [])

/-- Outcome assigned to the send of item `i` (out-of-range reads never occur
for arrivals of issued sends). -/
def outAt (outcomes : List SendOutcome) (i : Nat) : SendOutcome :=
  (outcomes[i]?).getD (.err "")

/-- Full run of the delivery procedure: the synchronous dispatch loop followed
by the asynchronous arrival of the external service's callbacks, one per
issued send, in arrival order `arrival` (a permutation of the issued sends
when every send invokes exactly one of its two callbacks once). -/
def runDelivery (cfg : Config) (fs : String → Option String) (ms : List MailItem)
    (outcomes : List SendOutcome) (arrival : List Nat) : DState :=
  arrival.foldl (fun st i => fireCallback st i (outAt outcomes i))
    (startDeliverySync cfg fs ms).1

/-- Apply the outcomes of the sends at indices `ar` to a results array. -/
def writeAll (outcomes : List SendOutcome) (rs : List ResultRec) (ar : List Nat) :
    List ResultRec :=
  ar.foldl (fun acc i => setOutcome acc i (outAt outcomes i)) rs

/-- The result entry the claim expects for item `m` with send outcome `o`:
outcome recorded, subject copied, internal mail reference removed. -/
def mkExpected (m : MailItem) (o : SendOutcome) : ResultRec :=
  { success := match o with | .err _ => false | .ok _ => true,
    message := some (match o with | .err e => e | .ok s => s),
    subject := m.subject, mail := none }

/-- The completion payload the claim expects: one entry per mail item, in
input order. -/
def expectedResults (ms : List MailItem) (outcomes : List SendOutcome) :
    List ResultRec :=
  List.zipWith mkExpected ms outcomes

/-! ### Helper lemmas about string prefixes and the skeleton -/

lemma isPrefixOf_append_left (p l₁ l₂ : List Char) (h : List.isPrefixOf p l₁ = true) :
    List.isPrefixOf p (l₁ ++ l₂) = true :=
  List.isPrefixOf_iff_prefix.mpr
    ((List.isPrefixOf_iff_prefix.mp h).trans (List.prefix_append l₁ l₂))

lemma doctype_head_isPrefixOf :
    List.isPrefixOf "<!DOCTYPE".data "<!DOCTYPE html>\n<html>\n<head>\n  <style>\n".data = true := by
  decide

/-- Every skeleton-wrapped document starts with `<!DOCTYPE`. -/
lemma skeletonWrap_starts_doctype (c h f b : String) :
    jsStartsWith (skeletonWrap c h f b) "<!DOCTYPE" = true := by
  simp only [jsStartsWith, skeletonWrap, String.data_append, List.append_assoc]
  exact isPrefixOf_append_left _ _ _ doctype_head_isPrefixOf

/-- Claim C6: for every body string that begins with `<html` or with
`<!DOCTYPE`, and for every brand (present or absent) and file-system state,
`htmlify` returns the body unchanged. -/
theorem c6_preformed_html_unchanged (fs : String → Option String) (b : String)
    (brand : BrandVal)
    (h : jsStartsWith b "<html" = true ∨ jsStartsWith b "<!DOCTYPE" = true) :
    htmlify fs b brand = b := by
  rcases h with h | h <;> simp [htmlify, h]

theorem c6_preformed_html_unchanged_witness :
    (jsStartsWith "<html><p>hi</p></html>" "<html" = true ∨
      jsStartsWith "<html><p>hi</p></html>" "<!DOCTYPE" = true) ∧
    htmlify (fun _ => none) "<html><p>hi</p></html>" (BrandVal.ref "acme") =
      "<html><p>hi</p></html>" :=
  ⟨Or.inl (by decide),
    c6_preformed_html_unchanged _ _ _ (Or.inl (by decide))⟩

/-- Claim C7: `htmlify` is idempotent on its own output — a second
application (with any brand and any file-system state) returns the first
application's result unchanged, since that result either was passed through
unchanged or is a skeleton-wrapped document starting with `<!DOCTYPE`. -/
theorem c7_htmlify_idempotent (fs fs' : String → Option String) (b : String)
    (br br' : BrandVal) :
    htmlify fs' (htmlify fs b br) br' = htmlify fs b br := by
  rcases Bool.eq_false_or_eq_true (jsStartsWith b "<html" || jsStartsWith b "<!DOCTYPE")
    with hg | hg
  · have h1 : htmlify fs b br = b := by simp [htmlify, hg]
    rw [h1]
    rcases Bool.or_eq_true_iff.mp hg with h | h <;> simp [htmlify, h]
  · have h1 : htmlify fs b br =
        skeletonWrap (readAsset fs br (fun x => x.css)) (readAsset fs br (fun x => x.header))
          (readAsset fs br (fun x => x.footer)) b := by
      simp [htmlify, hg]
    rw [h1]
    have h2 := skeletonWrap_starts_doctype (readAsset fs br (fun x => x.css))
      (readAsset fs br (fun x => x.header)) (readAsset fs br (fun x => x.footer)) b
    simp [htmlify, h2]

/-! ### Projections on the dispatcher's build result, and concrete inputs -/

/-- HTML body data of a built delivery request (none when the build threw). -/
def htmlDataOf : Except String SesParams → Option String
  | .ok p => p.htmlData
  | .error _ => none

/-- Plain-text body data of a built delivery request (none when the build threw). -/
def textDataOf : Except String SesParams → Option String
  | .ok p => p.textData
  | .error _ => none

/-- Whether the build succeeded (no exception raised). -/
def okParams : Except String SesParams → Bool
  | .ok _ => true
  | .error _ => false

/-- File-system oracle on which every read fails. -/
def fsNone : String → Option String := fun _ => none

/-- Recaptcha settings that pass validation with verification disabled. -/
def rcDisabledOK : Recaptcha :=
  { enabled := false, response := some "r", secret := some "s", remoteip := none }

/-- A valid mail item whose body is a raw HTML fragment and which has no brand. -/
def itemRawHtml : MailItem :=
  { «from» := some "a@x.com", «to» := some ["b@x.com"], cc := none, bcc := none,
    subject := some "S", body := some "<p>hi</p>", replyTo := none, brand := none }

/-- A request with no brand and no branding sequence. -/
def cfgNoBrand : Config :=
  { recaptcha := some rcDisabledOK, mail := some [itemRawHtml], brand := none,
    branding := none, deliver := none }

/-- A valid mail item with a plain-text body and an item-level brand reference. -/
def itemBrandHello : MailItem :=
  { «from» := some "a@x.com", «to» := some ["b@x.com"], cc := none, bcc := none,
    subject := some "S", body := some "hello", replyTo := none, brand := some "acme" }

/-- A request whose branding sequence is absent although an item names a brand. -/
def cfgNoBranding : Config :=
  { recaptcha := some rcDisabledOK, mail := some [itemBrandHello], brand := none,
    branding := none, deliver := none }

/-- A request whose branding sequence has no definition named `acme`. -/
def cfgBrandingNoMatch : Config :=
  { recaptcha := some rcDisabledOK, mail := some [itemBrandHello], brand := none,
    branding := some [{ name := "other", css := none, header := none, footer := none }],
    deliver := none }

/-- Counterexample to claim C4 as stated: for the brand-less item with body
`"<p>hi</p>"` the dispatcher does NOT pass the body through unchanged — the
HTML Data field is the skeleton wrap (with empty assets) of the body. -/
theorem c4_counterexample :
    truthyB (resolveBrand cfgNoBrand itemRawHtml) = false ∧
    jsStartsWith "<p>hi</p>" "<" = true ∧
    jsStartsWith "<p>hi</p>" "<html" = false ∧
    jsStartsWith "<p>hi</p>" "<!DOCTYPE" = false ∧
    htmlDataOf (buildParams cfgNoBrand fsNone itemRawHtml) ≠ some "<p>hi</p>" ∧
    htmlDataOf (buildParams cfgNoBrand fsNone itemRawHtml) =
      some (skeletonWrap "" "" "" "<p>hi</p>") := by
  decide

/-- Claim C4 (amended): for every mail item with no resolved brand whose body
starts with `<` but not with `<html` or `<!DOCTYPE`, the dispatcher marks the
message as HTML and sets the HTML Data field to the skeleton wrap of the raw
body with empty css/header/footer (not to the raw body itself); no plain-text
body is set and no error is raised. -/
theorem c4_unbranded_html_fragment (cfg : Config) (fs : String → Option String)
    (m : MailItem) (b : String)
    (hb : truthyB (resolveBrand cfg m) = false)
    (hbody : m.body = some b)
    (h1 : jsStartsWith b "<" = true)
    (h2 : jsStartsWith b "<html" = false)
    (h3 : jsStartsWith b "<!DOCTYPE" = false) :
    htmlDataOf (buildParams cfg fs m) = some (skeletonWrap "" "" "" b) ∧
    textDataOf (buildParams cfg fs m) = none ∧
    okParams (buildParams cfg fs m) = true := by
  have hh : htmlify fs b BrandVal.undef = skeletonWrap "" "" "" b := by
    simp [htmlify, h2, h3, readAsset]
  refine ⟨?_, ?_, ?_⟩ <;>
    simp [buildParams, hb, hbody, h1, hh, htmlDataOf, textDataOf, okParams]

theorem c4_unbranded_html_fragment_witness :
    htmlDataOf (buildParams cfgNoBrand fsNone itemRawHtml) =
      some (skeletonWrap "" "" "" "<p>hi</p>") ∧
    textDataOf (buildParams cfgNoBrand fsNone itemRawHtml) = none :=
  ⟨(c4_unbranded_html_fragment cfgNoBrand fsNone itemRawHtml "<p>hi</p>"
      (by decide) (by decide) (by decide) (by decide) (by decide)).1,
    (c4_unbranded_html_fragment cfgNoBrand fsNone itemRawHtml "<p>hi</p>"
      (by decide) (by decide) (by decide) (by decide) (by decide)).2.1⟩

/-- Counterexample to claim C5 as stated: with an item-level brand reference
`"acme"` and NO branding sequence configured, the plain-text body `"hello"`
is not sniffed to plain text — the reference stays truthy, the brand path is
taken, and the body is dispatched as skeleton-wrapped HTML. -/
theorem c5_counterexample :
    cfgNoBranding.branding = none ∧
    truthyS (jsOr itemBrandHello.brand cfgNoBranding.brand) = true ∧
    jsStartsWith "hello" "<" = false ∧
    textDataOf (buildParams cfgNoBranding fsNone itemBrandHello) = none ∧
    htmlDataOf (buildParams cfgNoBranding fsNone itemBrandHello) =
      some (skeletonWrap "" "" "" "hello") := by
  decide

lemma truthyB_ofOptString (r : Option String) (h : truthyS r = true) :
    truthyB (ofOptString r) = true := by
  cases r <;> simp_all [truthyS, ofOptString, truthyB]

/-- Claim C5 (amended): for every mail item with a truthy brand reference,
(a) if a branding sequence is configured but contains no definition whose
name exactly matches the reference, the item is treated as having no brand:
body kind is decided by start-tag sniffing and no error is raised; but
(b) if no branding sequence is configured, the string reference itself stays
truthy, the brand path is taken, and the body is always dispatched as HTML
through the templater (still with no error raised). -/
theorem c5_brand_lookup_fallback (cfg : Config) (fs : String → Option String)
    (m : MailItem) :
    (∀ bs, cfg.branding = some bs →
      truthyS (jsOr m.brand cfg.brand) = true →
      bs.find? (fun e => decide (e.name = (jsOr m.brand cfg.brand).getD "")) = none →
      resolveBrand cfg m = BrandVal.undef ∧
      (∀ b, m.body = some b →
        (jsStartsWith b "<" = true →
          htmlDataOf (buildParams cfg fs m) = some (htmlify fs b BrandVal.undef) ∧
          textDataOf (buildParams cfg fs m) = none ∧
          okParams (buildParams cfg fs m) = true) ∧
        (jsStartsWith b "<" = false →
          textDataOf (buildParams cfg fs m) = some b ∧
          htmlDataOf (buildParams cfg fs m) = none ∧
          okParams (buildParams cfg fs m) = true))) ∧
    (cfg.branding = none →
      truthyS (jsOr m.brand cfg.brand) = true →
      truthyB (resolveBrand cfg m) = true ∧
      htmlDataOf (buildParams cfg fs m) =
        some (htmlify fs (jsToString m.body) (resolveBrand cfg m)) ∧
      textDataOf (buildParams cfg fs m) = none ∧
      okParams (buildParams cfg fs m) = true) := by
  constructor
  · intro bs hbs hr hfind
    have hres : resolveBrand cfg m = BrandVal.undef := by
      simp [resolveBrand, hbs, hr, hfind]
    refine ⟨hres, ?_⟩
    intro b hbody
    have hb : truthyB (resolveBrand cfg m) = false := by rw [hres]; rfl
    constructor
    · intro hlt
      refine ⟨?_, ?_, ?_⟩ <;>
        simp [buildParams, hb, hbody, hlt, htmlDataOf, textDataOf, okParams]
    · intro hlt
      refine ⟨?_, ?_, ?_⟩ <;>
        simp [buildParams, hb, hbody, hlt, htmlDataOf, textDataOf, okParams]
  · intro hbs hr
    have hres : resolveBrand cfg m = ofOptString (jsOr m.brand cfg.brand) := by
      simp [resolveBrand, hbs]
    have hb : truthyB (resolveBrand cfg m) = true := by
      rw [hres]; exact truthyB_ofOptString _ hr
    refine ⟨hb, ?_, ?_, ?_⟩ <;>
      simp [buildParams, hb, htmlDataOf, textDataOf, okParams]

theorem c5_brand_lookup_fallback_witness :
    textDataOf (buildParams cfgBrandingNoMatch fsNone itemBrandHello) = some "hello" ∧
    htmlDataOf (buildParams cfgNoBranding fsNone itemBrandHello) =
      some (htmlify fsNone "hello" (BrandVal.ref "acme")) := by
  constructor
  · exact (((c5_brand_lookup_fallback cfgBrandingNoMatch fsNone itemBrandHello).1
      _ rfl (by decide) (by decide)).2 "hello" rfl).2 (by decide) |>.1
  · exact ((c5_brand_lookup_fallback cfgNoBranding fsNone itemBrandHello).2
      rfl (by decide)).2.1

/-! ### Claims C8, C2, C3: validation behaviour -/

/-- Claim C8: the recaptcha `response` and `secret` fields are required only
when `enabled` is false.  With `enabled` true, the handler proceeds past the
verification checks whatever `response`/`secret` hold (including absent);
with `enabled` false, a missing (falsy) `response` or `secret` makes the
handler invoke the error handler with the corresponding message and return
(nothing further happens, `earlyError`). -/
theorem c8_verification_fields (cfg : Config) (rc : Recaptcha) (ms : List MailItem)
    (h1 : cfg.recaptcha = some rc) (h2 : cfg.mail = some ms) :
    (rc.enabled = true →
      handlerSync cfg = HandlerSync.dispatch (itemValidationErrors ms) false) ∧
    (rc.enabled = false → truthyS rc.response = false →
      handlerSync cfg = HandlerSync.earlyError "No recaptcha response provided") ∧
    (rc.enabled = false → truthyS rc.response = true → truthyS rc.secret = false →
      handlerSync cfg = HandlerSync.earlyError "No recaptcha secret provided") := by
  refine ⟨?_, ?_, ?_⟩
  · intro he; simp [handlerSync, h1, h2, he]
  · intro he hr; simp [handlerSync, h1, he, hr]
  · intro he hr hs; simp [handlerSync, h1, he, hr, hs]

/-- A request with verification enabled and both verification fields absent. -/
def cfgEnabledNoFields : Config :=
  { recaptcha := some { enabled := true, response := none, secret := none, remoteip := none },
    mail := some [], brand := none, branding := none, deliver := none }

/-- A request with verification disabled and the `response` field absent. -/
def cfgDisabledNoResp : Config :=
  { recaptcha := some { enabled := false, response := none, secret := some "s", remoteip := none },
    mail := some [], brand := none, branding := none, deliver := none }

theorem c8_verification_fields_witness :
    handlerSync cfgEnabledNoFields = HandlerSync.dispatch [] false ∧
    handlerSync cfgDisabledNoResp = HandlerSync.earlyError "No recaptcha response provided" :=
  ⟨(c8_verification_fields cfgEnabledNoFields _ [] rfl rfl).1 rfl,
    (c8_verification_fields cfgDisabledNoResp _ [] rfl rfl).2.1 rfl rfl⟩

/-- A request whose `mail` field is absent (otherwise valid). -/
def cfgMailAbsent : Config :=
  { recaptcha := some rcDisabledOK, mail := none, brand := none,
    branding := none, deliver := none }

/-- A request whose `mail` field is the empty sequence (otherwise valid). -/
def cfgMailEmpty : Config :=
  { recaptcha := some rcDisabledOK, mail := some [], brand := none,
    branding := none, deliver := none }

/-- Claim C2 is violated by the code (`!config.mail && config.mail.length === 0`,
with `&&` where the intent is `||`): with `mail` absent the guard dereferences
`undefined` and the handler throws (the error handler is NOT invoked), and
with `mail` an empty sequence the guard is false, validation passes, the
delivery procedure starts with a zero latch and an empty results array, and
neither the error handler nor the completion handler is ever invoked. -/
theorem c2_mail_guard_bug :
    handlerSync cfgMailAbsent = HandlerSync.crash ∧
    handlerSync cfgMailEmpty = HandlerSync.dispatch [] true ∧
    startDeliverySync cfgMailEmpty fsNone [] =
      ({ results := [], latch := 0, completions := [] }, []) ∧
    runDelivery cfgMailEmpty fsNone [] [] [] =
      { results := [], latch := 0, completions := [] } := by
  decide

/-- A valid mail item used as a sibling of invalid ones. -/
def itemValidW : MailItem :=
  { «from» := some "c@x.com", «to» := some ["d@x.com"], cc := none, bcc := none,
    subject := some "T", body := some "world", replyTo := none, brand := none }

/-- A mail item missing its subject (the rest valid). -/
def itemNoSubject : MailItem :=
  { «from» := some "a@x.com", «to» := some ["b@x.com"], cc := none, bcc := none,
    subject := none, body := some "hello", replyTo := none, brand := none }

/-- A mail item missing its from address (the rest valid). -/
def itemNoFrom : MailItem :=
  { «from» := none, «to» := some ["b@x.com"], cc := none, bcc := none,
    subject := some "U", body := some "hi", replyTo := none, brand := none }

/-- A request with one invalid and one valid mail item. -/
def cfgOneBad : Config :=
  { recaptcha := some rcDisabledOK, mail := some [itemNoSubject, itemValidW],
    brand := none, branding := none, deliver := none }

/-- A request with two invalid mail items. -/
def cfgTwoBad : Config :=
  { recaptcha := some rcDisabledOK, mail := some [itemNoSubject, itemNoFrom],
    brand := none, branding := none, deliver := none }

/-- Claim C3 is violated by the code: `return validationError(...)` inside the
`forEach` callback only leaves that callback.  On a request with an invalid
item the error handler is invoked with the item's message, yet the handler
continues: fan-out starts (both sends are issued to the external service) and
— once the sends call back — the completion handler is invoked as well, so
the two callbacks are not mutually exclusive; and with two invalid items two
validation errors are reported, not just the first. -/
theorem c3_foreach_return_bug :
    handlerSync cfgOneBad = HandlerSync.dispatch ["No mail subject value provided"] true ∧
    (startDeliverySync cfgOneBad fsNone [itemNoSubject, itemValidW]).2 = [0, 1] ∧
    (runDelivery cfgOneBad fsNone [itemNoSubject, itemValidW]
        [SendOutcome.ok "id0", SendOutcome.ok "id1"] [0, 1]).completions.length = 1 ∧
    handlerSync cfgTwoBad =
      HandlerSync.dispatch
        ["No mail subject value provided", "No mail from value provided"] true := by
  decide

/-! ### Fan-out lemmas -/

lemma itemError_none_body (m : MailItem) (h : itemError m = none) :
    ∃ b, m.body = some b := by
  unfold itemError at h
  split_ifs at h with h1 h2 h3 h4
  have hb : truthyS m.body = true := by
    rcases Bool.eq_false_or_eq_true (truthyS m.body) with ht | hf
    · exact ht
    · exact absurd hf h4
  cases hbody : m.body with
  | none => rw [hbody] at hb; simp [truthyS] at hb
  | some b => exact ⟨b, rfl⟩

lemma buildParams_ok_of_body (cfg : Config) (fs : String → Option String)
    (m : MailItem) (b : String) (hb : m.body = some b) :
    okParams (buildParams cfg fs m) = true := by
  rcases Bool.eq_false_or_eq_true (truthyB (resolveBrand cfg m)) with ht | ht
  · simp [buildParams, okParams, ht]
  · rcases Bool.eq_false_or_eq_true (jsStartsWith b "<") with hlt | hlt <;>
      simp [buildParams, okParams, ht, hb, hlt]

lemma sendMail_call_of_valid (cfg : Config) (fs : String → Option String)
    (m : MailItem) (hdel : effDeliver cfg = true) (h : itemError m = none) :
    ∃ p, sendMail cfg fs m = SendAction.call p := by
  obtain ⟨b, hb⟩ := itemError_none_body m h
  have hok := buildParams_ok_of_body cfg fs m b hb
  cases hbp : buildParams cfg fs m with
  | error e => rw [hbp] at hok; simp [okParams] at hok
  | ok p => exact ⟨p, by simp [sendMail, hbp, hdel]⟩

lemma sendMail_skipped_of_valid (cfg : Config) (fs : String → Option String)
    (m : MailItem) (hdel : effDeliver cfg = false) (h : itemError m = none) :
    sendMail cfg fs m = SendAction.skipped := by
  obtain ⟨b, hb⟩ := itemError_none_body m h
  have hok := buildParams_ok_of_body cfg fs m b hb
  cases hbp : buildParams cfg fs m with
  | error e => rw [hbp] at hok; simp [okParams] at hok
  | ok p => simp [sendMail, hbp, hdel]

/-- When every item's send is issued, the dispatch loop leaves the state
untouched and records the item indices, in order, as pending sends. -/
lemma phaseASteps_all_call (cfg : Config) (fs : String → Option String) :
    ∀ (l : List MailItem), (∀ m ∈ l, ∃ p, sendMail cfg fs m = SendAction.call p) →
    ∀ (k : Nat) (st : DState) (pending : List Nat),
      phaseASteps cfg fs k l (st, pending) = (st, pending ++ List.range' k l.length) := by
  intro l
  induction l with
  | nil => intro _ k st pending; simp [phaseASteps, List.range']
  | cons m ms ih =>
    intro h k st pending
    obtain ⟨p, hp⟩ := h m (List.mem_cons_self m ms)
    have ih' := ih (fun x hx => h x (List.mem_cons_of_mem _ hx)) (k + 1) st (pending ++ [k])
    calc phaseASteps cfg fs k (m :: ms) (st, pending)
        = phaseASteps cfg fs (k + 1) ms (st, pending ++ [k]) := by
          simp [phaseASteps, hp]
      _ = (st, (pending ++ [k]) ++ List.range' (k + 1) ms.length) := ih'
      _ = (st, pending ++ List.range' k (m :: ms).length) := by
          rw [List.length_cons, List.range'_succ k ms.length 1, ← List.append_cons]

/-- When every item's send is skipped, the dispatch loop is a no-op. -/
lemma phaseASteps_all_skip (cfg : Config) (fs : String → Option String) :
    ∀ (l : List MailItem), (∀ m ∈ l, sendMail cfg fs m = SendAction.skipped) →
    ∀ (k : Nat) (st : DState) (pending : List Nat),
      phaseASteps cfg fs k l (st, pending) = (st, pending) := by
  intro l
  induction l with
  | nil => intro _ k st pending; simp [phaseASteps]
  | cons m ms ih =>
    intro h k st pending
    have hp := h m (List.mem_cons_self m ms)
    have ih' := ih (fun x hx => h x (List.mem_cons_of_mem _ hx)) (k + 1) st pending
    simp [phaseASteps, hp, ih']

/-- With all items valid and delivery enabled, the synchronous dispatch phase
issues every send (pending indices `0..N-1` in order) and fires no callback. -/
lemma startDeliverySync_all_valid (cfg : Config) (fs : String → Option String)
    (ms : List MailItem) (hdel : effDeliver cfg = true)
    (hvalid : itemValidationErrors ms = []) :
    startDeliverySync cfg fs ms =
      ({ results := initResults ms, latch := (ms.length : Int), completions := [] },
        List.range ms.length) := by
  have hall : ∀ m ∈ ms, ∃ p, sendMail cfg fs m = SendAction.call p := fun m hm =>
    sendMail_call_of_valid cfg fs m hdel
      (List.filterMap_eq_nil_iff.mp hvalid m hm)
  unfold startDeliverySync
  rw [phaseASteps_all_call cfg fs ms hall 0 _ []]
  rw [List.nil_append, ← List.range_eq_range']

/-- With all items valid and delivery disabled, the synchronous dispatch phase
does nothing: no send is issued, no callback fires, the latch keeps its
initial value. -/
lemma startDeliverySync_no_deliver (cfg : Config) (fs : String → Option String)
    (ms : List MailItem) (hdel : effDeliver cfg = false)
    (hvalid : itemValidationErrors ms = []) :
    startDeliverySync cfg fs ms =
      ({ results := initResults ms, latch := (ms.length : Int), completions := [] }, []) := by
  have hall : ∀ m ∈ ms, sendMail cfg fs m = SendAction.skipped := fun m hm =>
    sendMail_skipped_of_valid cfg fs m hdel
      (List.filterMap_eq_nil_iff.mp hvalid m hm)
  unfold startDeliverySync
  rw [phaseASteps_all_skip cfg fs ms hall 0 _ []]

/-! ### Fan-in lemmas: latch countdown and result aggregation -/

lemma setOutcome_getElem? (o : SendOutcome) :
    ∀ (rs : List ResultRec) (i j : Nat),
      (setOutcome rs i o)[j]? =
        if i = j then (rs[j]?).map (applyOutcome o) else rs[j]? := by
  intro rs
  induction rs with
  | nil => intro i j; simp [setOutcome]
  | cons r rs ih =>
    intro i j
    cases i with
    | zero =>
      cases j with
      | zero => simp [setOutcome]
      | succ k => simp [setOutcome]
    | succ n =>
      cases j with
      | zero => simp [setOutcome]
      | succ k =>
        have := ih n k
        simp only [setOutcome, List.getElem?_cons_succ]
        rw [this]
        by_cases hnk : n = k
        · simp [hnk]
        · simp [hnk, fun h => hnk (Nat.succ_injective h)]

lemma writeAll_getElem? (outcomes : List SendOutcome) :
    ∀ (ar : List Nat) (rs : List ResultRec) (j : Nat), ar.Nodup →
      (writeAll outcomes rs ar)[j]? =
        if j ∈ ar then (rs[j]?).map (applyOutcome (outAt outcomes j)) else rs[j]? := by
  intro ar
  induction ar with
  | nil => intro rs j _; simp [writeAll]
  | cons i ar ih =>
    intro rs j hnd
    have hnotmem : i ∉ ar := (List.nodup_cons.mp hnd).1
    have htail : ar.Nodup := (List.nodup_cons.mp hnd).2
    have hW : writeAll outcomes rs (i :: ar) =
        writeAll outcomes (setOutcome rs i (outAt outcomes i)) ar := rfl
    rw [hW, ih _ j htail]
    by_cases hj : j ∈ ar
    · have hij : i ≠ j := fun h => hnotmem (h ▸ hj)
      rw [setOutcome_getElem?, if_neg hij]
      simp [hj, List.mem_cons_of_mem _ hj]
    · rw [setOutcome_getElem?]
      by_cases hij : i = j
      · subst hij
        simp [hj]
      · have hji : j ≠ i := fun h => hij h.symm
        have hnotc : j ∉ i :: ar := by
          intro hc
          rcases List.mem_cons.mp hc with hc | hc
          · exact hji hc
          · exact hj hc
        rw [if_neg hij, if_neg hnotc, if_neg hj]

lemma zipWith_getElem? {α β γ : Type} (f : α → β → γ) :
    ∀ (l₁ : List α) (l₂ : List β) (j : Nat),
      (List.zipWith f l₁ l₂)[j]? =
        (l₁[j]?).bind fun a => (l₂[j]?).map fun b => f a b := by
  intro l₁
  induction l₁ with
  | nil => intro l₂ j; simp
  | cons a l₁ ih =>
    intro l₂ j
    cases l₂ with
    | nil => simp
    | cons b l₂ =>
      cases j with
      | zero => simp
      | succ k => simp [ih l₂ k]

/-- Folding the per-item callbacks over a non-empty arrival list whose length
equals the latch: every callback decrements the latch, only the last one
brings it to zero, and the completion handler is invoked exactly once, with
the cleaned, fully-written results array. -/
lemma runFire_eq (outcomes : List SendOutcome) :
    ∀ (ar : List Nat) (rs : List ResultRec) (acc : List (List ResultRec)), ar ≠ [] →
      ar.foldl (fun st i => fireCallback st i (outAt outcomes i))
          { results := rs, latch := (ar.length : Int), completions := acc } =
        { results := cleanAll (writeAll outcomes rs ar), latch := 0,
          completions := acc ++ [cleanAll (writeAll outcomes rs ar)] } := by
  intro ar
  induction ar with
  | nil => intro rs acc h; exact absurd rfl h
  | cons i ar ih =>
    intro rs acc _
    by_cases har : ar = []
    · subst har
      simp [fireCallback, writeAll]
    · have hlen : ((i :: ar).length : Int) - 1 = (ar.length : Int) := by
        simp [List.length_cons]
      have hlat : ((i :: ar).length : Int) - 1 ≠ 0 := by
        rw [hlen]
        exact Nat.cast_ne_zero.mpr (fun h => har (List.length_eq_zero.mp h))
      have hstep : fireCallback
          { results := rs, latch := ((i :: ar).length : Int), completions := acc }
          i (outAt outcomes i) =
          { results := setOutcome rs i (outAt outcomes i), latch := (ar.length : Int),
            completions := acc } := by
        simp only [fireCallback]
        rw [if_neg hlat, hlen]
      rw [List.foldl_cons, hstep, ih _ acc har]
      rfl

/-- Writing each item's outcome once, in any order covering exactly the
indices `0..N-1`, and then cleaning, yields one result per mail item in input
order: outcome recorded, subject copied, mail reference removed. -/
lemma cleanAll_writeAll_perm (ms : List MailItem) (outcomes : List SendOutcome)
    (ar : List Nat) (har : ar.Perm (List.range ms.length))
    (hout : outcomes.length = ms.length) :
    cleanAll (writeAll outcomes (initResults ms) ar) = expectedResults ms outcomes := by
  have hnd : ar.Nodup := har.symm.nodup (List.nodup_range ms.length)
  apply List.ext_getElem?
  intro j
  have hmem : (j ∈ ar) ↔ j < ms.length := by rw [har.mem_iff, List.mem_range]
  simp only [cleanAll, List.getElem?_map]
  rw [writeAll_getElem? outcomes ar (initResults ms) j hnd]
  unfold expectedResults
  rw [zipWith_getElem?]
  by_cases hj : j < ms.length
  · have hjar : j ∈ ar := hmem.mpr hj
    rw [if_pos hjar]
    have hjo : j < outcomes.length := by rw [hout]; exact hj
    obtain ⟨o, ho⟩ : ∃ o, outcomes[j]? = some o :=
      ⟨outcomes[j], List.getElem?_eq_getElem hjo⟩
    obtain ⟨m, hm⟩ : ∃ m, ms[j]? = some m := ⟨ms[j], List.getElem?_eq_getElem hj⟩
    have hinit : (initResults ms)[j]? =
        some { success := false, message := none, subject := m.subject, mail := some m } := by
      simp only [initResults, List.getElem?_map, hm, Option.map_some']
    have houtat : outAt outcomes j = o := by simp [outAt, ho]
    rw [hinit, hm, ho, houtat]
    cases o <;> rfl
  · have hjar : j ∉ ar := fun hc => hj (hmem.mp hc)
    rw [if_neg hjar]
    have hlen : (initResults ms).length = ms.length := by simp [initResults]
    have hinit : (initResults ms)[j]? = none :=
      List.getElem?_eq_none (hlen ▸ Nat.le_of_not_lt hj)
    have hms : ms[j]? = none := List.getElem?_eq_none (Nat.le_of_not_lt hj)
    rw [hinit, hms]
    rfl

/-- Claim C1 (amended with a non-empty mail sequence): for every request that
passes validation with at least one mail item, with verification disabled and
deliver true, where each issued external send invokes exactly one of its two
callbacks (outcomes `outcomes`, arrival order any permutation of the issued
sends), the completion handler is invoked exactly once, with an array holding
exactly one result per mail item in input order, each carrying success,
message and subject with the internal mail reference removed. -/
theorem c1_completion_exactly_once (cfg : Config) (rc : Recaptcha)
    (fs : String → Option String) (ms : List MailItem)
    (outcomes : List SendOutcome) (arrival : List Nat)
    (hrc : cfg.recaptcha = some rc) (hen : rc.enabled = false)
    (hresp : truthyS rc.response = true) (hsec : truthyS rc.secret = true)
    (hmail : cfg.mail = some ms) (hne : ms ≠ [])
    (hvalid : itemValidationErrors ms = [])
    (hdel : effDeliver cfg = true)
    (hout : outcomes.length = ms.length)
    (harr : arrival.Perm (startDeliverySync cfg fs ms).2) :
    handlerSync cfg = HandlerSync.dispatch [] true ∧
    runDelivery cfg fs ms outcomes arrival =
      { results := expectedResults ms outcomes, latch := 0,
        completions := [expectedResults ms outcomes] } := by
  have hsync := startDeliverySync_all_valid cfg fs ms hdel hvalid
  constructor
  · simp [handlerSync, hrc, hen, hresp, hsec, hmail, hvalid]
  · have harr' : arrival.Perm (List.range ms.length) := by
      rw [hsync] at harr; exact harr
    have hlen : arrival.length = ms.length := by
      rw [harr'.length_eq, List.length_range]
    have hanene : arrival ≠ [] := by
      intro h
      apply hne
      apply List.length_eq_zero.mp
      rw [← hlen, h]
      rfl
    unfold runDelivery
    rw [hsync]
    show arrival.foldl (fun st i => fireCallback st i (outAt outcomes i))
        { results := initResults ms, latch := (ms.length : Int), completions := [] } = _
    have hcast : ((ms.length : Int)) = (arrival.length : Int) := by
      exact_mod_cast hlen.symm
    rw [hcast, runFire_eq outcomes arrival (initResults ms) [] hanene,
      cleanAll_writeAll_perm ms outcomes arrival harr' hout]
    rfl

/-- A valid plain-text mail item used for concrete runs. -/
def itemW1 : MailItem :=
  { «from» := some "a@x.com", «to» := some ["b@x.com"], cc := none, bcc := none,
    subject := some "S", body := some "hello", replyTo := none, brand := none }

/-- A valid single-item request with verification disabled and deliver true. -/
def cfgW1 : Config :=
  { recaptcha := some rcDisabledOK, mail := some [itemW1], brand := none,
    branding := none, deliver := none }

theorem c1_completion_exactly_once_witness :
    handlerSync cfgW1 = HandlerSync.dispatch [] true ∧
    runDelivery cfgW1 fsNone [itemW1] [SendOutcome.ok "id-1"] [0] =
      { results := expectedResults [itemW1] [SendOutcome.ok "id-1"], latch := 0,
        completions := [expectedResults [itemW1] [SendOutcome.ok "id-1"]] } :=
  c1_completion_exactly_once cfgW1 rcDisabledOK fsNone [itemW1]
    [SendOutcome.ok "id-1"] [0] rfl rfl (by decide) (by decide) rfl (by decide)
    (by decide) rfl rfl (by decide)

/-- Counterexample to claim C1 as stated (without the non-empty amendment):
the request with `mail: []` passes validation (a consequence of the `&&`
guard, see C2), has verification disabled and deliver true, issues zero
external sends — so each send vacuously invokes exactly one callback — and
yet the completion handler is invoked zero times, not exactly once. -/
theorem c1_counterexample :
    handlerSync cfgMailEmpty = HandlerSync.dispatch [] true ∧
    effDeliver cfgMailEmpty = true ∧
    (startDeliverySync cfgMailEmpty fsNone []).2 = [] ∧
    (runDelivery cfgMailEmpty fsNone [] [] []).completions = [] := by
  decide

/-- Claim C9: for every request with the deliver flag false that passes
validation, no external mail-delivery call is issued (the pending-send list
is empty), no per-item callback ever fires (the results array and the latch
keep their initial values, so the latch is never decremented towards zero),
and — since there are no send callbacks to arrive — the completion handler is
never invoked. -/
theorem c9_no_deliver_stall (cfg : Config) (fs : String → Option String)
    (ms : List MailItem)
    (hvalid : itemValidationErrors ms = [])
    (hdel : effDeliver cfg = false) :
    (startDeliverySync cfg fs ms).2 = [] ∧
    (startDeliverySync cfg fs ms).1 =
      { results := initResults ms, latch := (ms.length : Int), completions := [] } ∧
    (∀ outcomes arrival, arrival.Perm (startDeliverySync cfg fs ms).2 →
      runDelivery cfg fs ms outcomes arrival =
        { results := initResults ms, latch := (ms.length : Int), completions := [] }) := by
  have hsync := startDeliverySync_no_deliver cfg fs ms hdel hvalid
  refine ⟨by rw [hsync], by rw [hsync], ?_⟩
  intro outcomes arrival harr
  rw [hsync] at harr
  have hnil : arrival = [] := List.perm_nil.mp harr
  subst hnil
  unfold runDelivery
  rw [hsync]
  rfl

/-- A valid single-item request with the deliver flag explicitly false. -/
def cfgW9 : Config :=
  { recaptcha := some rcDisabledOK, mail := some [itemW1], brand := none,
    branding := none, deliver := some false }

theorem c9_no_deliver_stall_witness :
    (startDeliverySync cfgW9 fsNone [itemW1]).2 = [] ∧
    runDelivery cfgW9 fsNone [itemW1] [] [] =
      { results := initResults [itemW1], latch := 1, completions := [] } :=
  ⟨(c9_no_deliver_stall cfgW9 fsNone [itemW1] (by decide) rfl).1,
    (c9_no_deliver_stall cfgW9 fsNone [itemW1] (by decide) rfl).2.2 [] [] (by decide)⟩

/-- Claim C10: for every request whose mail field is present but empty and
whose verification settings pass validation with enabled false, validation
passes (no error-handler call: the dispatch outcome carries no item errors),
the latch is initialised to zero, no send is dispatched, and no arrival can
occur, so the completion handler is never invoked either. -/
theorem c10_empty_mail_silent (cfg : Config) (rc : Recaptcha)
    (fs : String → Option String)
    (hrc : cfg.recaptcha = some rc) (hen : rc.enabled = false)
    (hresp : truthyS rc.response = true) (hsec : truthyS rc.secret = true)
    (hmail : cfg.mail = some ([] : List MailItem)) :
    handlerSync cfg = HandlerSync.dispatch [] true ∧
    startDeliverySync cfg fs [] =
      ({ results := [], latch := 0, completions := [] }, []) ∧
    (∀ outcomes arrival, arrival.Perm (startDeliverySync cfg fs []).2 →
      runDelivery cfg fs [] outcomes arrival =
        { results := [], latch := 0, completions := [] }) := by
  refine ⟨by simp [handlerSync, hrc, hen, hresp, hsec, hmail, itemValidationErrors], rfl, ?_⟩
  intro outcomes arrival harr
  have hnil : arrival = [] := List.perm_nil.mp harr
  subst hnil
  rfl

theorem c10_empty_mail_silent_witness :
    handlerSync cfgMailEmpty = HandlerSync.dispatch [] true ∧
    runDelivery cfgMailEmpty fsNone [] [] [] =
      { results := [], latch := 0, completions := [] } :=
  ⟨(c10_empty_mail_silent cfgMailEmpty rcDisabledOK fsNone rfl rfl (by decide)
      (by decide) rfl).1,
    (c10_empty_mail_silent cfgMailEmpty rcDisabledOK fsNone rfl rfl (by decide)
      (by decide) rfl).2.2 [] [] (by decide)⟩
